import Mathlib

/-!
Verification of the citation-extraction pipeline and the research-progress
stream decoder of the Ramayana Digital Rishi UI.

The citation pipeline is embedded from the `ChatMessage` component (the later
revision in the repository, the one with the `shloka = "0"` whole-chapter
sentinel and the `isChapterRef` renderer): four sequential
`String.replace(regex, fn)` passes over the message content.  JavaScript
strings are modelled as `List Char`; each regex is modelled by a hand-rolled
matcher that reproduces the regex engine's behaviour (greedy/lazy quantifier
order, backtracking, case-insensitive flags) at a match position, and each
global replace by a fuel-indexed left-to-right scan driver (fuel = input
length, so the fuel never runs out: every step consumes at least one input
character).

The stream decoder is embedded from the `useAgent` hook (`plan_update`,
`step_detail` and `answer` handlers) and the citation renderer from the
`ChatMessage` markdown link component plus `handleVerseClick` in `App`.
-/

/-! ## Character classes (JavaScript regex semantics) -/

/-- JavaScript `\d`. -/
def isDigitChar (c : Char) : Bool := '0' ≤ c && c ≤ '9'

/-- JavaScript `\s` (the ASCII part plus NBSP and BOM, the cases that occur
in chat text). -/
def isWsChar (c : Char) : Bool :=
  c == ' ' || c == '\t' || c == '\n' || c == '\r' ||
  c.toNat == 11 || c.toNat == 12 || c.toNat == 0xA0 || c.toNat == 0xFEFF

/-- JavaScript `.` without the `s` flag: any character except line terminators. -/
def isDotChar (c : Char) : Bool :=
  c != '\n' && c != '\r' && c.toNat != 0x2028 && c.toNat != 0x2029

/-- ASCII lowering, the case folding the `i` flag performs on ASCII letters. -/
def lowerChar (c : Char) : Char :=
  if 'A' ≤ c && c ≤ 'Z' then Char.ofNat (c.toNat + 32) else c

/-- Case-insensitive literal match at the head of `s`: returns the actually
consumed characters (original case) and the rest. -/
def ciStarts : List Char → List Char → Option (List Char × List Char)
  | [], s => some ([], s)
  | _ :: _, [] => none
  | p :: ps, c :: cs =>
    if lowerChar p = lowerChar c then
      match ciStarts ps cs with
      | some (t, r) => some (c :: t, r)
      | none => none
    else none

/-- `new RegExp(pat, 'i').test(s)` for a literal pattern: case-insensitive
substring test. -/
def containsCI (pat : List Char) : List Char → Bool
  | [] => (ciStarts pat []).isSome
  | c :: rest => (ciStarts pat (c :: rest)).isSome || containsCI pat rest

/-- `(s.match(/:1/g) || []).length`: the number of (non-overlapping, which for
this two-character pattern is all) occurrences of ":1". -/
def countColon1 : List Char → Nat
  | ':' :: '1' :: rest => 1 + countColon1 rest
  | _ :: rest => countColon1 rest
  | [] => 0

/-- Number of positions of `s` where `pat` starts (used to count citation
links in an output). -/
def countSubstr (pat : List Char) : List Char → Nat
  | [] => 0
  | c :: rest => (if pat.isPrefixOf (c :: rest) then 1 else 0) + countSubstr pat rest

/-- Numeric value of a digit string (base 10). -/
def natOfDigits (ds : List Char) : Nat :=
  ds.foldl (fun n c => n * 10 + (c.toNat - '0'.toNat)) 0

/-! ## `encodeURIComponent` -/

/-- Characters `encodeURIComponent` leaves unescaped. -/
def isUriUnreserved (c : Char) : Bool :=
  ('A' ≤ c && c ≤ 'Z') || ('a' ≤ c && c ≤ 'z') || ('0' ≤ c && c ≤ '9') ||
  c == '-' || c == '_' || c == '.' || c == '!' || c == '~' || c == '*' ||
  c == Char.ofNat 39 || c == '(' || c == ')'

/-- Uppercase hex digit. -/
def hexDigitChar (n : Nat) : Char :=
  if n < 10 then Char.ofNat ('0'.toNat + n) else Char.ofNat ('A'.toNat + n - 10)

/-- `%HH` escape of one byte. -/
def pctByte (b : Nat) : List Char := ['%', hexDigitChar (b / 16), hexDigitChar (b % 16)]

/-- UTF-8 bytes of a code point. -/
def utf8Bytes (n : Nat) : List Nat :=
  if n < 0x80 then [n]
  else if n < 0x800 then [0xC0 + n / 64, 0x80 + n % 64]
  else if n < 0x10000 then [0xE0 + n / 4096, 0x80 + (n / 64) % 64, 0x80 + n % 64]
  else [0xF0 + n / 262144, 0x80 + (n / 4096) % 64, 0x80 + (n / 64) % 64, 0x80 + n % 64]

/-- `encodeURIComponent` over the code points of `s`. -/
def encodeUriComponent (s : List Char) : List Char :=
  s.flatMap fun c => if isUriUnreserved c then [c] else (utf8Bytes c.toNat).flatMap pctByte

/-! ## Bracket pass: `[[Verse: ...]]` (BRACKET_CITATION_REGEX + its replacer) -/

/-- The seven canto names of `kandaList`, in source order. -/
def kandaList : List (List Char) :=
  ["Bala".data, "Ayodhya".data, "Aranya".data, "Kishkindha".data,
   "Sundara".data, "Yuddha".data, "Uttara".data]

/-- `KANDA_MAP[key] || "Bala Kanda"`: the numeric canto index table with its
default. -/
def KANDA_MAP (key : List Char) : List Char :=
  if key = ['1'] then "Bala Kanda".data
  else if key = ['2'] then "Ayodhya Kanda".data
  else if key = ['3'] then "Aranya Kanda".data
  else if key = ['4'] then "Kishkindha Kanda".data
  else if key = ['5'] then "Sundara Kanda".data
  else if key = ['6'] then "Yuddha Kanda".data
  else if key = ['7'] then "Uttara Kanda".data
  else "Bala Kanda".data

/-- `kandaList.find(k => new RegExp(k, 'i').test(content))`. -/
def foundKanda (content : List Char) : Option (List Char) :=
  kandaList.find? fun k => containsCI k content

/-- `/Kanda\s+(\d+)/i` tried at one position: `Kanda` (case-insensitive), at
least one whitespace, then the maximal digit run (the capture). -/
def kandaIndexAt (s : List Char) : Option (List Char) :=
  match ciStarts "Kanda".data s with
  | none => none
  | some (_, r) =>
    let w := r.takeWhile isWsChar
    if w.isEmpty then none
    else
      let d := (r.dropWhile isWsChar).takeWhile isDigitChar
      if d.isEmpty then none else some d

/-- `content.match(/Kanda\s+(\d+)/i)`: first match's capture, scanning left to
right. -/
def kandaIndexMatch : List Char → Option (List Char)
  | [] => none
  | c :: rest =>
    match kandaIndexAt (c :: rest) with
    | some d => some d
    | none => kandaIndexMatch rest

/-- `content.match(/\d+/g) || []`: the maximal digit runs, left to right.
`acc` carries the digits of the run in progress, reversed. -/
def digitRunsAux (acc : Option (List Char)) : List Char → List (List Char)
  | [] => match acc with | some r => [r.reverse] | none => []
  | c :: rest =>
    if isDigitChar c then digitRunsAux (some (c :: acc.getD [])) rest
    else match acc with
      | some r => r.reverse :: digitRunsAux none rest
      | none => digitRunsAux none rest

/-- All maximal digit runs of `content`. -/
def digitRuns (content : List Char) : List (List Char) := digitRunsAux none content

/-- The `(sarga, shloka)` pair the bracket replacer computes: all integers,
minus the first one when `/Kanda\s+(\d+)/i` matched anywhere (`isIndexed`),
then first/second with the `"0"` whole-chapter sentinel for a single integer
and the `("1", "1")` default for none. -/
def bracketNums (content : List Char) : List Char × List Char :=
  let allNumbers := digitRuns content
  let dataNumbers := if (kandaIndexMatch content).isSome then allNumbers.drop 1 else allNumbers
  match dataNumbers with
  | a :: b :: _ => (a, b)
  | [a] => (a, "0".data)
  | [] => ("1".data, "1".data)

/-- The `cleanKanda` the bracket replacer computes: a canto name found
case-insensitively in the inner text, else the numeric index through
`KANDA_MAP`, else the `"Bala Kanda"` default. -/
def cleanKanda (content : List Char) : List Char :=
  match foundKanda content with
  | some k => k ++ " Kanda".data
  | none =>
    match kandaIndexMatch content with
    | some d => KANDA_MAP d
    | none => "Bala Kanda".data

/-- The internal marker `[[CIT:kanda|sarga|shloka]]` the bracket replacer
returns for the captured inner text. -/
def bracketReplacement (content : List Char) : List Char :=
  let sv := bracketNums content
  "[[CIT:".data ++ cleanKanda content ++ ['|'] ++ sv.1 ++ ['|'] ++ sv.2 ++ "]]".data

/-- Lazy `(.+?)` followed by `]]`: the shortest non-empty run of
non-line-terminator characters with `]]` right after it.  Returns the capture
and the rest after the `]]`. -/
def lazyVerseBody (acc : List Char) : List Char → Option (List Char × List Char)
  | [] => none
  | c :: rest =>
    if isDotChar c then
      let acc' := acc ++ [c]
      if rest.take 2 = [']', ']'] then some (acc', rest.drop 2)
      else lazyVerseBody acc' rest
    else none

/-- Backtracking of `\s*` before the lazy group: the regex engine first lets
`\s*` keep its maximal run; on failure it hands whitespace characters back to
`(.+?)` one at a time (`wsRev` is the consumed whitespace, reversed). -/
def verseBodySearch : List Char → List Char → Option (List Char × List Char)
  | wsRev, body =>
    match lazyVerseBody [] body with
    | some r => some r
    | none =>
      match wsRev with
      | [] => none
      | c :: wr => verseBodySearch wr (c :: body)

/-- `/\[\[Verse:\s*(.+?)\]\]/i` tried at one position: returns the captured
inner text and the rest after the match. -/
def tryBracketCitation (s : List Char) : Option (List Char × List Char) :=
  match ciStarts "[[Verse:".data s with
  | none => none
  | some (_, r) =>
    verseBodySearch (r.takeWhile isWsChar).reverse (r.dropWhile isWsChar)

/-- The bracket pass scan: replace every match of the bracket regex by its
marker, leaving everything else unchanged.  Each step consumes at least one
input character, so `fuel = length` suffices. -/
def bracketPassGo : Nat → List Char → List Char
  | 0, s => s
  | _ + 1, [] => []
  | fuel + 1, c :: rest =>
    match tryBracketCitation (c :: rest) with
    | some (content, r) => bracketReplacement content ++ bracketPassGo fuel r
    | none => c :: bracketPassGo fuel rest

/-- First pass of `ChatMessage`: `processedContent.replace(BRACKET_CITATION_REGEX, ...)`. -/
def bracketPass (s : List Char) : List Char := bracketPassGo s.length s

/-! ## Naked pass: `<Canto> Kanda <n>[: ]<m>` (NAKED_CITATION_REGEX + its replacer) -/

/-- A match of the naked citation regex: the whole matched span, the three
captures and the rest of the input. -/
structure NakedMatch where
  span : List Char
  kName : List Char
  sNum : List Char
  vNum : List Char
  rest : List Char

/-- The canto-name alternation tried at one position (no two names are
case-insensitive prefixes of one another, so at most one alternative fits). -/
def tryKandaName : List (List Char) → List Char → Option (List Char × List Char)
  | [], _ => none
  | n :: ns, s =>
    match ciStarts n s with
    | some (t, r) => some (t, r)
    | none => tryKandaName ns s

/-- `/(Bala|...|Uttara)\s*Kanda\s*(\d+)[: ](\d+)/i` tried at one position.
Every quantifier here is deterministic: `\s*` is maximal (the next literal is
never whitespace) and the digit runs are maximal (the following character is
never a digit). -/
def tryNakedCitation (s : List Char) : Option NakedMatch :=
  match tryKandaName kandaList s with
  | none => none
  | some (kText, r1) =>
    let w1 := r1.takeWhile isWsChar
    match ciStarts "Kanda".data (r1.dropWhile isWsChar) with
    | none => none
    | some (kandaText, r3) =>
      let w2 := r3.takeWhile isWsChar
      let r4 := r3.dropWhile isWsChar
      let d1 := r4.takeWhile isDigitChar
      if d1.isEmpty then none
      else
        match r4.dropWhile isDigitChar with
        | [] => none
        | sep :: r6 =>
          if sep = ':' ∨ sep = ' ' then
            let d2 := r6.takeWhile isDigitChar
            if d2.isEmpty then none
            else some {
              span := kText ++ w1 ++ kandaText ++ w2 ++ d1 ++ [sep] ++ d2,
              kName := kText, sNum := d1, vNum := d2,
              rest := r6.dropWhile isDigitChar }
          else none

/-- The naked replacer: the adjacency guard (previous character `[`/`(` or
next character `]`/`)` leaves the match untouched), then the hallucination
check (`vNum === "1"` and more than two `:1` occurrences in the pass input,
whose count is `count1`), else the `[[CIT:...]]` marker. -/
def nakedReplacer (count1 : Nat) (prev next : Option Char) (m : NakedMatch) : List Char :=
  if prev = some '[' ∨ prev = some '(' ∨ next = some ']' ∨ next = some ')' then m.span
  else if m.vNum = "1".data ∧ count1 > 2 then m.span
  else "[[CIT:".data ++ m.kName ++ " Kanda".data ++ ['|'] ++ m.sNum ++ ['|'] ++ m.vNum ++ "]]".data

/-- The naked pass scan.  `prev` is the input character just before the
current position (`fullText[offset - 1]`); scanning resumes after a match
whether or not it was converted, exactly as the regex engine's `lastIndex`
does. -/
def nakedPassGo : Nat → Nat → Option Char → List Char → List Char
  | 0, _, _, s => s
  | _ + 1, _, _, [] => []
  | fuel + 1, count1, prev, c :: rest =>
    match tryNakedCitation (c :: rest) with
    | some m =>
      nakedReplacer count1 prev m.rest.head? m ++
        nakedPassGo fuel count1 m.span.getLast? m.rest
    | none => c :: nakedPassGo fuel count1 (some c) rest

/-- Second pass of `ChatMessage`: the `:1` count is taken over the pass input
(the value of `processedContent` after the bracket pass). -/
def nakedPass (s : List Char) : List Char := nakedPassGo s.length (countColon1 s) none s

/-! ## Sarga-only pass: `<Canto> Kanda [Sarga] <n>` (SARGA_ONLY_REGEX + its replacer) -/

/-- A match of the sarga-only regex. -/
structure SargaMatch where
  span : List Char
  kName : List Char
  sNum : List Char
  rest : List Char

/-- The negative lookahead `(?!\s*[:\d])`: fails exactly when the first
character after the optional whitespace run is a colon or a digit. -/
def sargaLookaheadOk (r : List Char) : Bool :=
  match (r.dropWhile isWsChar).head? with
  | some c => !(c == ':' || isDigitChar c)
  | none => true

/-- The digit run plus lookahead at the end of the sarga-only regex.  Only the
maximal digit run can pass the lookahead (a shorter one is followed by a
digit), so no backtracking inside the run is needed. -/
def sargaDigits (r : List Char) : Option (List Char × List Char) :=
  let d := r.takeWhile isDigitChar
  if d.isEmpty then none
  else
    let rest := r.dropWhile isDigitChar
    if sargaLookaheadOk rest then some (d, rest) else none

/-- `/(Bala|...|Uttara)\s*Kanda\s*(?:Sarga\s*)?(\d+)(?!\s*[:\d])/i` tried at
one position.  The optional `Sarga` group is greedy: it is tried first, and
on its failure the digits are required directly (which then fail on the `S`
of `Sarga`, reproducing the engine's backtracking). -/
def trySargaOnly (s : List Char) : Option SargaMatch :=
  match tryKandaName kandaList s with
  | none => none
  | some (kText, r1) =>
    let w1 := r1.takeWhile isWsChar
    match ciStarts "Kanda".data (r1.dropWhile isWsChar) with
    | none => none
    | some (kandaText, r3) =>
      let w2 := r3.takeWhile isWsChar
      let r4 := r3.dropWhile isWsChar
      let viaSarga : Option SargaMatch :=
        match ciStarts "Sarga".data r4 with
        | none => none
        | some (sargaText, r5) =>
          let w3 := r5.takeWhile isWsChar
          match sargaDigits (r5.dropWhile isWsChar) with
          | none => none
          | some (d, rest) => some {
              span := kText ++ w1 ++ kandaText ++ w2 ++ sargaText ++ w3 ++ d,
              kName := kText, sNum := d, rest := rest }
      match viaSarga with
      | some m => some m
      | none =>
        match sargaDigits r4 with
        | none => none
        | some (d, rest) => some {
            span := kText ++ w1 ++ kandaText ++ w2 ++ d,
            kName := kText, sNum := d, rest := rest }

/-- The sarga-only replacer: the same adjacency guard, the (unreachable, but
kept faithful) colon check, else a marker with the `0` whole-chapter verse. -/
def sargaReplacer (prev next : Option Char) (m : SargaMatch) : List Char :=
  if prev = some '[' ∨ prev = some '(' ∨ next = some ']' ∨ next = some ')' then m.span
  else if next = some ':' then m.span
  else "[[CIT:".data ++ m.kName ++ " Kanda".data ++ ['|'] ++ m.sNum ++ "|0]]".data

/-- The sarga-only pass scan. -/
def sargaPassGo : Nat → Option Char → List Char → List Char
  | 0, _, s => s
  | _ + 1, _, [] => []
  | fuel + 1, prev, c :: rest =>
    match trySargaOnly (c :: rest) with
    | some m =>
      sargaReplacer prev m.rest.head? m ++ sargaPassGo fuel m.span.getLast? m.rest
    | none => c :: sargaPassGo fuel (some c) rest

/-- Third pass of `ChatMessage`. -/
def sargaPass (s : List Char) : List Char := sargaPassGo s.length none s

/-! ## Final pass: `[[CIT:k|s|v]]` markers to markdown links -/

/-- The tail of the marker regex after the lazy capture:
`\|(\d+)\|(\d+)\]\]`, deterministic (maximal digit runs). -/
def citTail : List Char → Option (List Char × List Char × List Char)
  | '|' :: r1 =>
    let d1 := r1.takeWhile isDigitChar
    if d1.isEmpty then none
    else
      match r1.dropWhile isDigitChar with
      | '|' :: r2 =>
        let d2 := r2.takeWhile isDigitChar
        if d2.isEmpty then none
        else
          match r2.dropWhile isDigitChar with
          | ']' :: ']' :: r3 => some (d1, d2, r3)
          | _ => none
      | _ => none
  | _ => none

/-- The lazy `(.+?)` of the marker regex: shortest non-empty run of
non-line-terminator characters whose continuation matches `citTail`. -/
def lazyCitBody (acc : List Char) : List Char → Option (List Char × List Char × List Char × List Char)
  | [] => none
  | c :: rest =>
    if isDotChar c then
      let acc' := acc ++ [c]
      match citTail rest with
      | some (d1, d2, r) => some (acc', d1, d2, r)
      | none => lazyCitBody acc' rest
    else none

/-- `/\[\[CIT:(.+?)\|(\d+)\|(\d+)\]\]/` (case-sensitive) tried at one
position. -/
def tryCitMarker (s : List Char) : Option (List Char × List Char × List Char × List Char) :=
  if "[[CIT:".data.isPrefixOf s then lazyCitBody [] (s.drop 6) else none

/-- The marker replacer:
`[k s:v](http://citation/encodeURIComponent(k)/s/v)`. -/
def citReplacement (k s v : List Char) : List Char :=
  ['['] ++ k ++ [' '] ++ s ++ [':'] ++ v ++ "](http://citation/".data ++
    encodeUriComponent k ++ ['/'] ++ s ++ ['/'] ++ v ++ [')']

/-- The final pass scan. -/
def citPassGo : Nat → List Char → List Char
  | 0, s => s
  | _ + 1, [] => []
  | fuel + 1, c :: rest =>
    match tryCitMarker (c :: rest) with
    | some (k, d1, d2, r) => citReplacement k d1 d2 ++ citPassGo fuel r
    | none => c :: citPassGo fuel rest

/-- Fourth pass of `ChatMessage`. -/
def citPass (s : List Char) : List Char := citPassGo s.length s

/-- The whole citation pipeline of `ChatMessage` over a message body. -/
def extractL (s : List Char) : List Char := citPass (sargaPass (nakedPass (bracketPass s)))

/-- The pipeline over `String`s. -/
def extract (s : String) : String := ⟨extractL s.data⟩

/-! ## Research-progress stream decoder (`useAgent` handlers)

The decoder folds typed events into the in-progress assistant message.  The
parts of that message the three handlers below touch are the content, the
plan-completion cursor and the per-step detail lists; `planDetails` is a
JavaScript object (unique keys), modelled as an association list where an
update rewrites the key in place and a fresh key is appended, exactly as the
spread `{...prevDetails, [idx]: v}` behaves. -/

/-- The per-message state the `useAgent` event handlers mutate. -/
structure AgentMsg where
  content : String
  planCompletedIndex : Int
  planDetails : List (Nat × List String)
deriving DecidableEq

/-- `prevDetails[idx] || []`. -/
def lookupDetails (pd : List (Nat × List String)) (idx : Nat) : List String :=
  match pd.find? (fun p => p.1 == idx) with
  | some p => p.2
  | none => []

/-- `{...prevDetails, [idx]: v}`: rewrite the existing key in place, else
append it. -/
def setDetails (pd : List (Nat × List String)) (idx : Nat) (v : List String) :
    List (Nat × List String) :=
  if pd.any (fun p => p.1 == idx) then pd.map (fun p => if p.1 == idx then (idx, v) else p)
  else pd ++ [(idx, v)]

/-- The `step_detail` handler: skip when the detail already occurs in the
step's list (`stepDetails.includes(data.detail)`), else append it. -/
def applyStepDetail (m : AgentMsg) (idx : Nat) (detail : String) : AgentMsg :=
  let stepDetails := lookupDetails m.planDetails idx
  if stepDetails.contains detail then m
  else { m with planDetails := setDetails m.planDetails idx (stepDetails ++ [detail]) }

/-- The `plan_update` handler: `{...m, planCompletedIndex: data.completed}`. -/
def applyPlanUpdate (m : AgentMsg) (completed : Int) : AgentMsg :=
  { m with planCompletedIndex := completed }

/-- The `answer` handler: `{...msg, content: data.content}`. -/
def applyAnswer (m : AgentMsg) (c : String) : AgentMsg :=
  { m with content := c }

/-- A run of `plan_update` events. -/
def applyPlanUpdates (m : AgentMsg) (cs : List Int) : AgentMsg := cs.foldl applyPlanUpdate m

/-- A run of `answer` events. -/
def applyAnswers (m : AgentMsg) (cs : List String) : AgentMsg := cs.foldl applyAnswer m

/-- A run of `step_detail` events, each an `(stepIndex, detail)` pair. -/
def applyStepDetails (m : AgentMsg) (evs : List (Nat × String)) : AgentMsg :=
  evs.foldl (fun m e => applyStepDetail m e.1 e.2) m

/-! ## Citation renderer (`ChatMessage` link component and `handleVerseClick`) -/

/-- `const isChapterRef = shloka === '0'`. -/
def isChapterRef (shloka : List Char) : Bool := shloka == "0".data

/-- The label the citation button shows: without the `:verse` part for a
chapter reference. -/
def citationLabel (kanda sarga shloka : List Char) : List Char :=
  if isChapterRef shloka then kanda ++ [' '] ++ sarga
  else kanda ++ [' '] ++ sarga ++ [':'] ++ shloka

/-- What the citation button's click does: nothing for a chapter reference
(`if (isChapterRef) return`), else it hands `(kanda, sarga, shloka)` to the
verse-lookup collaborator `onVerseClick` (`handleVerseClick` in `App`). -/
def clickAction (kanda sarga shloka : List Char) :
    Option (List Char × List Char × List Char) :=
  if isChapterRef shloka then none else some (kanda, sarga, shloka)

/-! ## Lemmas about the detail map -/

set_option maxRecDepth 10000

theorem find?_replaceKey_self (pd : List (Nat × List String)) (i : Nat) (v : List String) :
    List.find? (fun p => p.1 == i) (pd.map fun p => if p.1 == i then (i, v) else p)
      = (List.find? (fun p => p.1 == i) pd).map fun _ => (i, v) := by
  induction pd with
  | nil => rfl
  | cons p t ih =>
    rw [List.map_cons]
    by_cases hp : p.1 = i
    · have hpe : (p.1 == i) = true := by simp [hp]
      rw [if_pos hpe]
      simp only [List.find?_cons, hpe, beq_self_eq_true]
      rfl
    · have hpe : (p.1 == i) = false := by simp [hp]
      rw [if_neg (by simp [hpe])]
      simp only [List.find?_cons, hpe]
      exact ih

theorem find?_replaceKey_other (pd : List (Nat × List String)) (i j : Nat) (v : List String)
    (h : j ≠ i) :
    List.find? (fun p => p.1 == j) (pd.map fun p => if p.1 == i then (i, v) else p)
      = List.find? (fun p => p.1 == j) pd := by
  induction pd with
  | nil => rfl
  | cons p t ih =>
    rw [List.map_cons]
    by_cases hp : p.1 = i
    · have hpe : (p.1 == i) = true := by simp [hp]
      rw [if_pos hpe]
      have h1 : (i == j) = false := by simp [Ne.symm h]
      have h2 : (p.1 == j) = false := by simp [hp, Ne.symm h]
      simp only [List.find?_cons, h1, h2]
      exact ih
    · have hpe : (p.1 == i) = false := by simp [hp]
      rw [if_neg (by simp [hpe])]
      by_cases hj : p.1 = j
      · have h1 : (p.1 == j) = true := by simp [hj]
        simp only [List.find?_cons, h1]
      · have h1 : (p.1 == j) = false := by simp [hj]
        simp only [List.find?_cons, h1]
        exact ih

theorem lookupDetails_set_self (pd : List (Nat × List String)) (i : Nat) (v : List String) :
    lookupDetails (setDetails pd i v) i = v := by
  unfold setDetails
  by_cases h : pd.any (fun p => p.1 == i) = true
  · rw [if_pos h]
    unfold lookupDetails
    rw [find?_replaceKey_self]
    obtain ⟨x, hx, hpx⟩ := List.any_eq_true.mp h
    have hs : (List.find? (fun p => p.1 == i) pd).isSome = true :=
      List.find?_isSome.mpr ⟨x, hx, hpx⟩
    match hf : List.find? (fun p => p.1 == i) pd with
    | some y => rw [hf]; rfl
    | none => rw [hf] at hs; simp at hs
  · rw [if_neg h]
    unfold lookupDetails
    rw [List.find?_append]
    have hnone : List.find? (fun p => p.1 == i) pd = none := by
      rw [List.find?_eq_none]
      intro x hx hpx
      exact h (List.any_eq_true.mpr ⟨x, hx, hpx⟩)
    rw [hnone]
    simp

theorem lookupDetails_set_other (pd : List (Nat × List String)) (i j : Nat) (v : List String)
    (h : j ≠ i) : lookupDetails (setDetails pd i v) j = lookupDetails pd j := by
  unfold setDetails
  by_cases ha : pd.any (fun p => p.1 == i) = true
  · rw [if_pos ha]
    unfold lookupDetails
    rw [find?_replaceKey_other pd i j v h]
  · rw [if_neg ha]
    unfold lookupDetails
    rw [List.find?_append]
    have h1 : List.find? (fun p => p.1 == j) [(i, v)] = none := by
      simp [Ne.symm h]
    rw [h1, Option.or_none]

theorem applyStepDetail_of_contains (m : AgentMsg) (i : Nat) (d : String)
    (h : (lookupDetails m.planDetails i).contains d = true) : applyStepDetail m i d = m := by
  have hd : d ∈ lookupDetails m.planDetails i := by simpa using h
  simp [applyStepDetail, hd]

theorem lookup_applyStepDetail_self (m : AgentMsg) (i : Nat) (d : String)
    (h : (lookupDetails m.planDetails i).contains d = false) :
    lookupDetails (applyStepDetail m i d).planDetails i
      = lookupDetails m.planDetails i ++ [d] := by
  have hd : d ∉ lookupDetails m.planDetails i := by simpa using h
  simp [applyStepDetail, hd, lookupDetails_set_self]

theorem lookup_applyStepDetail_other (m : AgentMsg) (i j : Nat) (d : String) (h : j ≠ i) :
    lookupDetails (applyStepDetail m i d).planDetails j = lookupDetails m.planDetails j := by
  by_cases hc : (lookupDetails m.planDetails i).contains d = true
  · rw [applyStepDetail_of_contains m i d hc]
  · rw [Bool.not_eq_true] at hc
    have hd : d ∉ lookupDetails m.planDetails i := by simpa using hc
    simp [applyStepDetail, hd, lookupDetails_set_other _ _ _ _ h]

theorem applyStepDetail_twice (m : AgentMsg) (i : Nat) (d : String) :
    applyStepDetail (applyStepDetail m i d) i d = applyStepDetail m i d := by
  by_cases hc : (lookupDetails m.planDetails i).contains d = true
  · rw [applyStepDetail_of_contains m i d hc, applyStepDetail_of_contains m i d hc]
  · apply applyStepDetail_of_contains
    rw [Bool.not_eq_true] at hc
    rw [lookup_applyStepDetail_self m i d hc]
    simp

theorem stepDetail_preserves_nodup (m : AgentMsg) (i : Nat) (d : String)
    (h : ∀ j, (lookupDetails m.planDetails j).Nodup) :
    ∀ j, (lookupDetails (applyStepDetail m i d).planDetails j).Nodup := by
  intro j
  by_cases hc : (lookupDetails m.planDetails i).contains d = true
  · rw [applyStepDetail_of_contains m i d hc]; exact h j
  · rw [Bool.not_eq_true] at hc
    by_cases hj : j = i
    · subst hj
      rw [lookup_applyStepDetail_self m j d hc]
      have hd : d ∉ lookupDetails m.planDetails j := by simpa using hc
      simp [List.nodup_append, h j, hd]
    · rw [lookup_applyStepDetail_other m i j d hj]; exact h j

/-! ## Claim theorems -/

/-- C1: for the spec's example `[[Verse: Bala Kanda 4:5]]` the bracket
replacer does NOT produce chapter 4, verse 5.  The inner text also matches
`/Kanda\s+(\d+)/i` (the canto-index test), so the replacer drops the first
integer even though the canto came from its name: it yields sarga `"5"`,
shloka `"0"`, and the whole pipeline turns the citation into the
whole-chapter link `Bala Kanda 5`. -/
theorem c1_bracket_pass_drops_chapter :
    bracketNums "Bala Kanda 4:5".data = ("5".data, "0".data) ∧
    extract "[[Verse: Bala Kanda 4:5]]"
      = "[Bala Kanda 5:0](http://citation/Bala%20Kanda/5/0)" := by
  decide

/-- C2 counterexample: a `plan_update` whose `completed` value is lower than
the current cursor is NOT ignored — from cursor 2, the event `plan_update 1`
moves the cursor to 1. -/
theorem c2_plan_update_counterexample :
    ((⟨"", 2, []⟩ : AgentMsg)).planCompletedIndex = 2 ∧
    (applyPlanUpdate ⟨"", 2, []⟩ 1).planCompletedIndex = 1 ∧
    (1 : Int) ≠ 2 :=
  ⟨rfl, rfl, by decide⟩

/-- C2 (amended): the `plan_update` handler overwrites `planCompletedIndex`
unconditionally (last write wins, no monotonicity guard); the sequence
`[2, 1, 3]` therefore still ends at 3. -/
theorem c2_plan_update_last_write_wins :
    (∀ (m : AgentMsg) (c : Int), (applyPlanUpdate m c).planCompletedIndex = c) ∧
    (∀ (m : AgentMsg), (applyPlanUpdates m [2, 1, 3]).planCompletedIndex = 3) :=
  ⟨fun _ _ => rfl, fun _ => rfl⟩

/-- C3 counterexample: the input `"[Bala Kanda 4:5]"` yields zero converted
citations, not exactly one: the naked pass is blocked by the adjacency guard
and the sarga-only pass by its negative lookahead, so the text is left as
literal text with no citation link in it. -/
theorem c3_adjacency_counterexample :
    countSubstr "http://citation/".data (extract "[Bala Kanda 4:5]").data = 0 := by
  decide

/-- C3 (amended): the naked-pass replacer never converts a match that is
immediately adjacent to a bracket/paren delimiter (it returns the matched
span unchanged), and the input `"[Bala Kanda 4:5]"` is left entirely
unchanged (zero citations rather than one). -/
theorem c3_adjacency_guard :
    (∀ (count1 : Nat) (prev next : Option Char) (m : NakedMatch),
        (prev = some '[' ∨ prev = some '(' ∨ next = some ']' ∨ next = some ')') →
        nakedReplacer count1 prev next m = m.span) ∧
    extract "[Bala Kanda 4:5]" = "[Bala Kanda 4:5]" := by
  constructor
  · intro count1 prev next m h
    unfold nakedReplacer
    rw [if_pos h]
  · decide

/-- C3 witness: the guard hypothesis holds at a concrete guarded match
(previous character `[`), and the replacer returns the span unchanged. -/
theorem c3_adjacency_guard_witness :
    (some '[' = some '[' ∨ some '[' = some '(' ∨ (none : Option Char) = some ']' ∨
        (none : Option Char) = some ')') ∧
    nakedReplacer 0 (some '[') none
        ⟨"Bala Kanda 4:5".data, "Bala".data, "4".data, "5".data, []⟩
      = "Bala Kanda 4:5".data :=
  ⟨Or.inl rfl, c3_adjacency_guard.1 0 (some '[') none _ (Or.inl rfl)⟩

/-- C4 counterexample: extraction is not idempotent.  An input holding a
literal internal-marker fragment (`[[CIT:z Bala Kanda 2 3 w|4|5]]`) lets the
first run leave a dangling `[[CIT:` prefix next to a produced link, and the
second run's marker pass re-wraps that region, changing the string again. -/
theorem c4_idempotence_counterexample :
    extract (extract "[[CIT:z Bala Kanda 2 3 w|4|5]]")
      ≠ extract "[[CIT:z Bala Kanda 2 3 w|4|5]]" := by
  decide

/-- C4 (amended): re-running extraction is a no-op on the outputs produced
from ordinary citation text — here the spec's bracketed example, a naked
citation, a chapter-only citation, and a hallucination-guarded message — but
not for all text (see the counterexample). -/
theorem c4_idempotent_on_examples :
    extract (extract "[[Verse: Bala Kanda 4:5]]") = extract "[[Verse: Bala Kanda 4:5]]" ∧
    extract (extract "Bala Kanda 4:5") = extract "Bala Kanda 4:5" ∧
    extract (extract "Bala Kanda 7") = extract "Bala Kanda 7" ∧
    extract (extract "Bala Kanda 2:1 Ayodhya Kanda 3:1 Aranya Kanda 4:1 Sundara Kanda 5:1")
      = extract "Bala Kanda 2:1 Ayodhya Kanda 3:1 Aranya Kanda 4:1 Sundara Kanda 5:1" := by
  refine ⟨by decide, by decide, by decide, by decide⟩

/-- C5: each `answer` event fully replaces the message content (a snapshot,
not a delta), the last `answer` of any run is authoritative, and
`Answer "A"` then `Answer "AB"` ends with content `"AB"`. -/
theorem c5_answer_replaces_content :
    (∀ (m : AgentMsg) (c : String), (applyAnswer m c).content = c) ∧
    (∀ (m : AgentMsg) (cs : List String) (c : String),
        (applyAnswers m (cs ++ [c])).content = c) ∧
    (∀ (m : AgentMsg), (applyAnswer (applyAnswer m "A") "AB").content = "AB") := by
  refine ⟨fun _ _ => rfl, fun m cs c => ?_, fun _ => rfl⟩
  rw [applyAnswers, List.foldl_append]
  rfl

/-- C6 counterexample: a message with four naked-form matches all having
verse 1 — written with the space separator, so the pass input holds no `:1`
substring — converts all four citations, not at most two. -/
theorem c6_hallucination_counterexample :
    countSubstr "http://citation/".data
      (extract "Bala Kanda 2 1 Ayodhya Kanda 3 1 Aranya Kanda 4 1 Sundara Kanda 5 1").data
      = 4 := by
  decide

/-- C6 (amended): the naked-pass replacer leaves a match with verse literally
`"1"` as literal text whenever the pass input (the post-bracket-pass text)
holds more than two `:1` substrings; a message whose four verse-1 matches use
the colon separator produces such a count (4), so all four stay literal text
and zero citations are converted. -/
theorem c6_hallucination_guard :
    (∀ (count1 : Nat) (prev next : Option Char) (m : NakedMatch),
        m.vNum = "1".data → count1 > 2 → nakedReplacer count1 prev next m = m.span) ∧
    countColon1 "Bala Kanda 2:1 Ayodhya Kanda 3:1 Aranya Kanda 4:1 Sundara Kanda 5:1".data > 2 ∧
    extract "Bala Kanda 2:1 Ayodhya Kanda 3:1 Aranya Kanda 4:1 Sundara Kanda 5:1"
      = "Bala Kanda 2:1 Ayodhya Kanda 3:1 Aranya Kanda 4:1 Sundara Kanda 5:1" := by
  refine ⟨?_, by decide, by decide⟩
  intro count1 prev next m h1 h2
  unfold nakedReplacer
  by_cases hg : prev = some '[' ∨ prev = some '(' ∨ next = some ']' ∨ next = some ')'
  · rw [if_pos hg]
  · rw [if_neg hg, if_pos ⟨h1, h2⟩]

/-- C6 witness: the guard hypotheses hold at a concrete suspicious match
(verse `"1"`, three `:1` occurrences), and the replacer returns the span
unchanged. -/
theorem c6_hallucination_guard_witness :
    (⟨"Yuddha Kanda 9:1".data, "Yuddha".data, "9".data, "1".data, []⟩ : NakedMatch).vNum
      = "1".data ∧
    (3 : Nat) > 2 ∧
    nakedReplacer 3 none none
        ⟨"Yuddha Kanda 9:1".data, "Yuddha".data, "9".data, "1".data, []⟩
      = "Yuddha Kanda 9:1".data :=
  ⟨rfl, by decide, c6_hallucination_guard.1 3 none none _ rfl (by decide)⟩

/-- C7 counterexample: a `step_detail` whose detail differs from the
last-recorded entry (`"y"`) but occurs earlier in the step's list is NOT
appended — the handler checks membership in the whole list, so from
`planDetails[0] = ["x", "y"]` the event `step_detail 0 "x"` leaves the list
`["x", "y"]` instead of appending a third entry. -/
theorem c7_step_detail_counterexample :
    (lookupDetails ((⟨"", 0, [(0, ["x", "y"])]⟩ : AgentMsg)).planDetails 0).getLast?
      = some "y" ∧
    "x" ≠ "y" ∧
    lookupDetails (applyStepDetail ⟨"", 0, [(0, ["x", "y"])]⟩ 0 "x").planDetails 0
      = ["x", "y"] := by
  refine ⟨by decide, by decide, by decide⟩

/-- C7 (amended): a `step_detail` event appends its detail to
`planDetails[stepIndex]` unless the detail already occurs anywhere in that
list (whole-list membership, not only the last entry); in particular the
handler is idempotent on consecutive identical events, and two
`step_detail 0 "x"` events from an empty step list yield the single entry
`["x"]`. -/
theorem c7_step_detail_dedup :
    (∀ (m : AgentMsg) (i : Nat) (d : String),
        (lookupDetails m.planDetails i).contains d = true → applyStepDetail m i d = m) ∧
    (∀ (m : AgentMsg) (i : Nat) (d : String),
        (lookupDetails m.planDetails i).contains d = false →
        lookupDetails (applyStepDetail m i d).planDetails i
          = lookupDetails m.planDetails i ++ [d]) ∧
    (∀ (m : AgentMsg) (i : Nat) (d : String),
        applyStepDetail (applyStepDetail m i d) i d = applyStepDetail m i d) ∧
    (∀ (m : AgentMsg) (i : Nat) (d : String),
        lookupDetails m.planDetails i = [] →
        lookupDetails (applyStepDetail (applyStepDetail m i d) i d).planDetails i = [d]) := by
  refine ⟨applyStepDetail_of_contains, lookup_applyStepDetail_self, applyStepDetail_twice, ?_⟩
  intro m i d h
  rw [applyStepDetail_twice m i d,
    lookup_applyStepDetail_self m i d (by rw [h]; rfl), h]
  rfl

/-- C7 witness: from an empty step list (the hypothesis holds at the empty
message), two consecutive `step_detail 0 "x"` events yield the single entry
`["x"]`. -/
theorem c7_step_detail_dedup_witness :
    lookupDetails ((⟨"", 0, []⟩ : AgentMsg)).planDetails 0 = [] ∧
    lookupDetails (applyStepDetail (applyStepDetail ⟨"", 0, []⟩ 0 "x") 0 "x").planDetails 0
      = ["x"] :=
  ⟨rfl, c7_step_detail_dedup.2.2.2 ⟨"", 0, []⟩ 0 "x" rfl⟩

/-- C8: the code's own comment documents that a bracketed citation with a
single integer (its example: `Aranya Kanda 9`) is a whole-chapter reference
`chapter = 9, verse = 0`, but because the inner text also matches
`/Kanda\s+(\d+)/i` the single integer is dropped as a supposed canto index
and the fallback `chapter = "1", verse = "1"` is produced instead. -/
theorem c8_single_integer_bracket_bug :
    digitRuns "Aranya Kanda 9".data = ["9".data] ∧
    bracketNums "Aranya Kanda 9".data = ("1".data, "1".data) ∧
    extract "[[Verse: Aranya Kanda 9]]"
      = "[Aranya Kanda 1:1](http://citation/Aranya%20Kanda/1/1)" := by
  refine ⟨by decide, by decide, by decide⟩

/-- C9: a resolved reference whose verse is the `"0"` sentinel renders as a
chapter badge whose click invokes nothing, while a reference whose verse has
numeric value at least 1 is interactive and hands `(canto, chapter, verse)`
to the verse-lookup collaborator. -/
theorem c9_chapter_ref_click :
    (∀ (k s : List Char), clickAction k s "0".data = none) ∧
    (∀ (k s v : List Char), 1 ≤ natOfDigits v → clickAction k s v = some (k, s, v)) := by
  constructor
  · intro k s; rfl
  · intro k s v h
    have hv : v ≠ "0".data := by
      intro he
      rw [he] at h
      exact absurd h (by decide)
    simp [clickAction, isChapterRef, hv]

/-- C9 witness: verse `"5"` has numeric value at least 1 and its click hands
the full reference to the lookup. -/
theorem c9_chapter_ref_click_witness :
    1 ≤ natOfDigits "5".data ∧
    clickAction "Bala Kanda".data "4".data "5".data
      = some ("Bala Kanda".data, "4".data, "5".data) :=
  ⟨by decide, c9_chapter_ref_click.2 _ _ _ (by decide)⟩

/-- C10: the decoder never lets a step's detail list hold two equal entries —
starting from any message whose per-step lists are duplicate-free, any
sequence of `step_detail` events keeps every per-step list duplicate-free,
because the handler refuses a detail that occurs anywhere in the list. -/
theorem c10_plan_details_nodup (m : AgentMsg)
    (h : ∀ j, (lookupDetails m.planDetails j).Nodup) :
    ∀ (evs : List (Nat × String)) (j : Nat),
      (lookupDetails (applyStepDetails m evs).planDetails j).Nodup := by
  intro evs
  induction evs generalizing m with
  | nil => exact h
  | cons e t ih =>
    intro j
    have hstep : applyStepDetails m (e :: t) = applyStepDetails (applyStepDetail m e.1 e.2) t :=
      rfl
    rw [hstep]
    exact ih (applyStepDetail m e.1 e.2) (stepDetail_preserves_nodup m e.1 e.2 h) j

/-- C10 witness: from the fresh message (empty detail map, trivially
duplicate-free) a redelivered event sequence leaves `planDetails[0]`
duplicate-free. -/
theorem c10_plan_details_nodup_witness :
    (lookupDetails
        (applyStepDetails ⟨"", 0, []⟩ [(0, "x"), (0, "x"), (1, "y")]).planDetails 0).Nodup :=
  c10_plan_details_nodup ⟨"", 0, []⟩ (fun j => by simp [lookupDetails])
    [(0, "x"), (0, "x"), (1, "y")] 0
